import Mathlib

/-!
Verification of the OpenTUI repository's specification against its source.

The repository sources under verification are the angry-birds demo
(`src/examples/angry-birds-demo.ts` for the terminal variant and the
browser variant), together with the natural-language specification of the
buffer/compositing core.  The buffer core itself (OptimizedBuffer,
DoubleBufferCompositor, FrameScheduler) lives in the Zig backend /
`src/index.ts`, which is not part of the provided sources; those parts are
modelled from the spec, as marked in the doc comments below.
-/

namespace OpenTUI

/-- Modelled from the spec (section 3, Cell data model): an RGBA color with
rational components standing for the exact real arithmetic of the
compositing formulas. -/
structure RGBA where
  r : ℚ
  g : ℚ
  b : ℚ
  a : ℚ
deriving DecidableEq, Repr

/-- Modelled from the spec (section 3): the style attribute bitset of a cell. -/
structure Attrs where
  bold : Bool
  underline : Bool
  italic : Bool
  dim : Bool
  blink : Bool
  inverse : Bool
deriving DecidableEq, Repr

/-- Modelled from the spec (section 3): a Cell is a character (or empty),
foreground color, background color and style attributes. -/
structure Cell where
  ch : Option Char
  fg : RGBA
  bg : RGBA
  attrs : Attrs
deriving DecidableEq, Repr

def noAttrs : Attrs := ⟨false, false, false, false, false, false⟩

def defaultFg : RGBA := ⟨1, 1, 1, 1⟩

def blankBg : RGBA := ⟨0, 0, 0, 1⟩

/-- The cell an empty buffer position holds. -/
def blankCell : Cell := ⟨none, defaultFg, blankBg, noAttrs⟩

/-- Modelled from the spec (section 3, OptimizedBuffer): a 2D grid of cells
stored as a row-major sequence of length `width * height`. -/
structure OptimizedBuffer where
  width : ℕ
  height : ℕ
  cells : List Cell
deriving DecidableEq, Repr

/-- The length invariant of an OptimizedBuffer (spec section 3). -/
def OptimizedBuffer.wf (b : OptimizedBuffer) : Prop :=
  b.cells.length = b.width * b.height

/-- Modelled from the spec (sections 4.1 and 6): the bounds check shared by
all cell-level operations; coordinates are integers and may be negative. -/
def inBounds (b : OptimizedBuffer) (x y : ℤ) : Bool :=
  0 ≤ x && x < (b.width : ℤ) && 0 ≤ y && y < (b.height : ℤ)

/-- Row-major index of an in-bounds coordinate. -/
def cellIndex (b : OptimizedBuffer) (x y : ℤ) : ℕ :=
  y.toNat * b.width + x.toNat

/-- Modelled from the spec (section 6): `getCell(x,y)` is a bounds-checked
read; out of range it returns nothing rather than faulting. -/
def getCell (b : OptimizedBuffer) (x y : ℤ) : Option Cell :=
  if inBounds b x y then b.cells[cellIndex b x y]? else none

/-- Modelled from the spec (section 6): `setCell(x,y,cell)` is a
bounds-checked write; out of range it is a no-op. -/
def setCell (b : OptimizedBuffer) (x y : ℤ) (c : Cell) : OptimizedBuffer :=
  if inBounds b x y then { b with cells := b.cells.set (cellIndex b x y) c } else b

/-- Modelled from the spec (section 4.1): the standard "over" compositing
formula, `out = src.rgb*src.a + dst.rgb*(1-src.a)`,
`out.a = src.a + dst.a*(1-src.a)`. -/
def blendRGBA (dst src : RGBA) : RGBA :=
  { r := src.r * src.a + dst.r * (1 - src.a)
    g := src.g * src.a + dst.g * (1 - src.a)
    b := src.b * src.a + dst.b * (1 - src.a)
    a := src.a + dst.a * (1 - src.a) }

/-- Modelled from the spec (section 4.1): `blendColor(x,y,rgba)`
alpha-composites `rgba` onto the existing cell's `bg`; out of range it is a
no-op. -/
def blendColor (b : OptimizedBuffer) (x y : ℤ) (src : RGBA) : OptimizedBuffer :=
  if inBounds b x y then
    match b.cells[cellIndex b x y]? with
    | none => b
    | some cell =>
        { b with cells := b.cells.set (cellIndex b x y) { cell with bg := blendRGBA cell.bg src } }
  else b

/-- Modelled from the spec (section 4.1): `drawText` writes one cell per
character starting at `(x,y)`, clipping (no-op) for any cell outside the
buffer. -/
def drawText (b : OptimizedBuffer) (text : List Char) (x y : ℤ)
    (fg bg : RGBA) (attrs : Attrs) : OptimizedBuffer :=
  text.enum.foldl (fun acc p => setCell acc (x + p.1) y ⟨some p.2, fg, bg, attrs⟩) b

/-- The coordinates a `w × h` rectangle anchored at `(x,y)` targets. -/
def rectCells (x y : ℤ) (w h : ℕ) : List (ℤ × ℤ) :=
  (List.range h).flatMap (fun j => (List.range w).map (fun i => (x + i, y + j)))

/-- Modelled from the spec (section 4.1): `fillRect` writes cells in the
rectangle, clipped to buffer bounds. -/
def fillRect (b : OptimizedBuffer) (x y : ℤ) (w h : ℕ) (bg : RGBA) : OptimizedBuffer :=
  (rectCells x y w h).foldl (fun acc p => setCell acc p.1 p.2 ⟨none, defaultFg, bg, noAttrs⟩) b

/-- The border coordinates of a `w × h` rectangle anchored at `(x,y)`. -/
def borderCells (x y : ℤ) (w h : ℕ) : List (ℤ × ℤ) :=
  (rectCells x y w h).filter
    (fun p => p.1 = x ∨ p.1 = x + (w : ℤ) - 1 ∨ p.2 = y ∨ p.2 = y + (h : ℤ) - 1)

/-- Modelled from the spec (section 4.1): `drawRect` writes the border cells
of the rectangle, clipped to buffer bounds. -/
def drawRect (b : OptimizedBuffer) (x y : ℤ) (w h : ℕ) (fg : RGBA) : OptimizedBuffer :=
  (borderCells x y w h).foldl
    (fun acc p => setCell acc p.1 p.2 ⟨none, fg, blankBg, noAttrs⟩) b

/-- Modelled from the spec (section 4.2): the per-cell-index diff computed by
`diffAndFlush` — the list of `(index, new cell)` pairs at which front and
back disagree, produced in row-major index order. -/
def diffChanges (front back : List Cell) : List (ℕ × Cell) :=
  (List.range front.length).filterMap (fun i =>
    if front.getD i blankCell ≠ back.getD i blankCell then
      some (i, back.getD i blankCell)
    else none)

/-- Applying a change set to a cell sequence: each `(index, cell)` pair in
turn overwrites that index. -/
def applyChanges (cells : List Cell) (cs : List (ℕ × Cell)) : List Cell :=
  cs.foldl (fun acc p => acc.set p.1 p.2) cells

/-- Buffer-level diff of two equally sized buffers (spec section 4.2). -/
def diff (A B : OptimizedBuffer) : List (ℕ × Cell) :=
  diffChanges A.cells B.cells

/-- Applying a change set to a buffer. -/
def applyDiff (A : OptimizedBuffer) (cs : List (ℕ × Cell)) : OptimizedBuffer :=
  { A with cells := applyChanges A.cells cs }

/-- Modelled from the spec (sections 3 and 4.2): the double-buffer
compositor owns a front and a back buffer of identical dimensions. -/
structure DoubleBufferCompositor where
  front : OptimizedBuffer
  back : OptimizedBuffer
deriving DecidableEq, Repr

/-- Modelled from the spec (section 4.2): `diffAndFlush()` computes the
per-cell diff of front against back, emits the change stream, and then
swaps the two buffer references (a reference swap, not a cell copy). -/
def diffAndFlush (c : DoubleBufferCompositor) :
    DoubleBufferCompositor × List (ℕ × Cell) :=
  let changes := diffChanges c.front.cells c.back.cells
  ({ front := c.back, back := c.front }, changes)

/-- From `src/examples/angry-birds-demo.ts` and the browser variant:
`screenToWorld` maps terminal/window coordinates to world coordinates.
`WORLD_HEIGHT = 20`, `worldWidth = WORLD_HEIGHT * (width / height)`. -/
def screenToWorld (width height sx sy : ℚ) : ℚ × ℚ :=
  let worldWidth := 20 * (width / height)
  ((sx / width) * worldWidth - worldWidth / 2,
   20 / 2 - (sy / height) * 20)

/-- From the browser variant of the demo: `worldToScreen` maps world
coordinates back to window coordinates. -/
def worldToScreen (width height wx wy : ℚ) : ℚ × ℚ :=
  let worldWidth := 20 * (width / height)
  ((wx + worldWidth / 2) / worldWidth * width,
   height - ((wy + 20 / 2) / 20 * height))

/-- From `src/examples/angry-birds-demo.ts`: the part of the demo's
`GameState` that the lifecycle functions touch.  The frame callback, stdin
key handler and resize handler are modelled as numeric handles compared by
identity, as are the rigid-body handles of the physics objects. -/
structure DemoGameState where
  frameCallback : ℕ
  keyHandler : ℕ
  resizeHandler : ℕ
  objectBodies : List ℕ
deriving DecidableEq, Repr

/-- The registries the demo registers its handlers into: the renderer's frame
callbacks and resize listeners, the stdin data listeners, the renderer's
renderable ids, the physics world's bodies, and the 3D engine's liveness. -/
structure DemoSystem where
  gameState : Option DemoGameState
  frameCallbacks : List ℕ
  stdinListeners : List ℕ
  resizeListeners : List ℕ
  renderables : List String
  physicsBodies : List ℕ
  engineAlive : Bool
deriving DecidableEq, Repr

/-- From `destroy(renderer)` in `src/examples/angry-birds-demo.ts` (lines
683-699): if `gameState` is null, return at once; otherwise unregister the
frame callback, the stdin key listener and the resize listener, remove every
object's rigid body, destroy the engine, remove the two demo renderables, and
clear `gameState`. -/
def destroy (sys : DemoSystem) : DemoSystem :=
  match sys.gameState with
  | none => sys
  | some gs =>
      { gameState := none
        frameCallbacks := sys.frameCallbacks.filter (fun cb => cb != gs.frameCallback)
        stdinListeners := sys.stdinListeners.filter (fun cb => cb != gs.keyHandler)
        resizeListeners := sys.resizeListeners.filter (fun cb => cb != gs.resizeHandler)
        renderables := sys.renderables.filter
          (fun i => i != "angry-birds-main" && i != "angry-birds-container")
        physicsBodies := sys.physicsBodies.filter (fun rb => !(gs.objectBodies.contains rb))
        engineAlive := false }

/-- From `run(renderer)` in the demo: the registrations performed during
setup — the frame callback via `setFrameCallback`, the key handler via
`process.stdin.on`, the resize handler via `renderer.on("resize", ...)`, and
the two demo renderables; `gameState` is set at the end of `run`. -/
def runRegister (sys : DemoSystem) (gs : DemoGameState) : DemoSystem :=
  { sys with
    gameState := some gs
    frameCallbacks := sys.frameCallbacks ++ [gs.frameCallback]
    stdinListeners := sys.stdinListeners ++ [gs.keyHandler]
    resizeListeners := sys.resizeListeners ++ [gs.resizeHandler]
    renderables := sys.renderables ++ ["angry-birds-container", "angry-birds-main"]
    engineAlive := true }

/-- Modelled from the spec (section 4.4): a tick invokes every registered
frame callback; this lists the handles a tick would invoke. -/
def tickInvocations (sys : DemoSystem) : List ℕ :=
  sys.frameCallbacks

/-- The buffer dimensions the resize machinery maintains: the demo's frame
buffer renderable and (modelled from the spec, section 6) the compositor. -/
structure ViewState where
  fbWidth : ℕ
  fbHeight : ℕ
  compWidth : ℕ
  compHeight : ℕ
deriving DecidableEq, Repr

/-- The event kinds delivered to the renderer between paints. -/
inductive TermEvent where
  | resizeEv (w h : ℕ)
  | tick
  | keyEv
  | mouseEv
deriving DecidableEq, Repr

/-- From the demo's resize handler (lines 641-644):
`frameBuffer.resize(newWidth, newHeight)` sets the frame buffer renderable to
exactly the event's dimensions. -/
def demoResizeHandler (w h : ℕ) (s : ViewState) : ViewState :=
  { s with fbWidth := w, fbHeight := h }

/-- Modelled from the spec (section 6, resize signal): the resize event also
triggers the compositor to resize to the same dimensions. -/
def compositorResize (w h : ℕ) (s : ViewState) : ViewState :=
  { s with compWidth := w, compHeight := h }

/-- Modelled from the spec (sections 4.4 and 6): events are processed
sequentially by the single frame loop; a resize event runs the compositor
resize and the registered resize handler synchronously, while paint ticks and
input events do not change buffer dimensions. -/
def processEvent (s : ViewState) : TermEvent → ViewState
  | .resizeEv w h => demoResizeHandler w h (compositorResize w h s)
  | .tick => s
  | .keyEv => s
  | .mouseEv => s

/-- Processing a whole event trace in order. -/
def processEvents (s : ViewState) (es : List TermEvent) : ViewState :=
  es.foldl processEvent s

/-- Whether an event is a resize event. -/
def isResizeEv : TermEvent → Bool
  | .resizeEv _ _ => true
  | _ => false

/-- From three.js `Vector2.normalize` as used by the demo: divide by the
length, leaving the zero vector unchanged. -/
noncomputable def normalize2 (v : ℝ × ℝ) : ℝ × ℝ :=
  let n := Real.sqrt (v.1 ^ 2 + v.2 ^ 2)
  if n = 0 then v else (v.1 / n, v.2 / n)

/-- The drag-related part of the demo's game state: the bird launch anchor
`birdStartPosition`, the drag offset captured on pointer down, the dragging
flag, the bird's rigid-body translation (when a bird exists), and the cached
launch direction. -/
structure BirdState where
  birdStart : ℝ × ℝ
  dragOffset : ℝ × ℝ
  isDragging : Bool
  bird : Option (ℝ × ℝ)
  launchDirection : ℝ × ℝ

/-- From the clamp block of `onPointerMove` (browser demo lines 448-459):
the drag vector from the launch center to the target is measured with the
Euclidean length; when it exceeds `MAX_LAUNCH_DISTANCE = 4` it is normalized
and rescaled to length 4, and the target is moved back onto that circle. -/
noncomputable def clampTarget (center target : ℝ × ℝ) : ℝ × ℝ :=
  let dragVector : ℝ × ℝ := (target.1 - center.1, target.2 - center.2)
  let dragDistance : ℝ := Real.sqrt (dragVector.1 ^ 2 + dragVector.2 ^ 2)
  if 4 < dragDistance then
    (center.1 + dragVector.1 / dragDistance * 4, center.2 + dragVector.2 / dragDistance * 4)
  else target

/-- From `onPointerMove` in the browser demo (and the identical
`'move'`/`'drag'` branch of the terminal demo's mouse handler): when a bird
exists and dragging is active, move the bird to the pointer position minus
the drag offset, clamped to `MAX_LAUNCH_DISTANCE = 4` around
`birdStartPosition`, and cache the launch direction as the normalized
negated (possibly clamped) drag vector. -/
noncomputable def onPointerMove (s : BirdState) (worldPos : ℝ × ℝ) : BirdState :=
  match s.bird with
  | none => s
  | some _ =>
      if s.isDragging then
        let targetPos : ℝ × ℝ := (worldPos.1 - s.dragOffset.1, worldPos.2 - s.dragOffset.2)
        let target2 : ℝ × ℝ := clampTarget s.birdStart targetPos
        let dragVector2 : ℝ × ℝ := (target2.1 - s.birdStart.1, target2.2 - s.birdStart.2)
        { s with
          bird := some target2
          launchDirection := normalize2 (-dragVector2.1, -dragVector2.2) }
      else s

/-- From the terminal demo: a physics object as the cull loop sees it — its
id and its rigid body's translation after the physics step. -/
structure PhysObj where
  id : ℕ
  posX : ℚ
  posY : ℚ
deriving DecidableEq, Repr

/-- From `updatePhysics` (terminal demo lines 316-318): an object is removed
when `pos.y < -17.5 || Math.abs(pos.x) > 20`. -/
def offScreen (o : PhysObj) : Bool :=
  o.posY < -35 / 2 || 20 < |o.posX|

/-- The part of the demo's game state `updatePhysics` mutates: the object
list and the bird reference (as the culled/retained object ids). -/
structure PhysState where
  objects : List PhysObj
  bird : Option ℕ
deriving DecidableEq, Repr

/-- From the filter in `updatePhysics` (terminal demo lines 316-329): walk
the objects left to right, dropping each off-screen object and clearing the
bird reference when the dropped object is the current bird. -/
def cullFold : List PhysObj → Option ℕ → List PhysObj × Option ℕ
  | [], b => ([], b)
  | o :: rest, b =>
      if offScreen o then
        cullFold rest (if some o.id = b then none else b)
      else
        let r := cullFold rest b
        (o :: r.1, r.2)

/-- From `updatePhysics` (terminal demo lines 301-330): step the physics
world (the Rapier step is external to the repository and is modelled as an
arbitrary update `step` of the body translations), sync sprites, then cull
off-screen objects. -/
def updatePhysics (step : List PhysObj → List PhysObj) (s : PhysState) : PhysState :=
  let stepped := step s.objects
  let culled := cullFold stepped s.bird
  { objects := culled.1, bird := culled.2 }

end OpenTUI

namespace OpenTUI

lemma length_applyChanges (cs : List (ℕ × Cell)) (cells : List Cell) :
    (applyChanges cells cs).length = cells.length := by
  induction cs generalizing cells with
  | nil => rfl
  | cons p cs ih =>
      simp only [applyChanges, List.foldl_cons]
      rw [show (List.foldl (fun acc p => acc.set p.1 p.2) (cells.set p.1 p.2) cs)
            = applyChanges (cells.set p.1 p.2) cs from rfl, ih, List.length_set]

lemma applyChanges_append (cells : List Cell) (cs₁ cs₂ : List (ℕ × Cell)) :
    applyChanges cells (cs₁ ++ cs₂) = applyChanges (applyChanges cells cs₁) cs₂ := by
  simp [applyChanges, List.foldl_append]

lemma applyChanges_nil (cells : List Cell) : applyChanges cells [] = cells :=
  rfl

lemma applyChanges_singleton (cells : List Cell) (i : ℕ) (c : Cell) :
    applyChanges cells [(i, c)] = cells.set i c :=
  rfl

lemma applyChanges_diffRange (front back : List Cell)
    (hlen : front.length = back.length) (n : ℕ) (hn : n ≤ front.length) (j : ℕ) :
    (applyChanges front ((List.range n).filterMap fun i =>
        if front.getD i blankCell ≠ back.getD i blankCell then
          some (i, back.getD i blankCell)
        else none))[j]? = if j < n then back[j]? else front[j]? := by
  induction n with
  | zero => simp [applyChanges]
  | succ n ih =>
      have hn' : n ≤ front.length := Nat.le_of_succ_le hn
      have hnf : n < front.length := hn
      have hnb : n < back.length := hlen ▸ hnf
      rw [List.range_succ, List.filterMap_append, applyChanges_append]
      have hL : (applyChanges front ((List.range n).filterMap fun i =>
          if front.getD i blankCell ≠ back.getD i blankCell then
            some (i, back.getD i blankCell)
          else none)).length = front.length := length_applyChanges _ _
      by_cases hd : front.getD n blankCell = back.getD n blankCell
      · have hfn : (if front.getD n blankCell ≠ back.getD n blankCell then
            some (n, back.getD n blankCell) else none) = none :=
          if_neg (not_not_intro hd)
        have hnil : (List.filterMap (fun i =>
            if front.getD i blankCell ≠ back.getD i blankCell then
              some (i, back.getD i blankCell)
            else none) [n]) = [] := by
          rw [List.filterMap_cons, hfn, List.filterMap_nil]
        rw [hnil, applyChanges_nil, ih hn']
        rcases Nat.lt_trichotomy j n with hj | hj | hj
        · rw [if_pos hj, if_pos (by omega)]
        · subst hj
          rw [if_neg (by omega), if_pos (by omega)]
          have hfb : front[j] = back[j] := by
            have h1 := List.getD_eq_getElem front blankCell hnf
            have h2 := List.getD_eq_getElem back blankCell hnb
            rw [h1, h2] at hd
            exact hd
          rw [List.getElem?_eq_getElem hnf, List.getElem?_eq_getElem hnb, hfb]
        · rw [if_neg (by omega), if_neg (by omega)]
      · have hfs : (if front.getD n blankCell ≠ back.getD n blankCell then
            some (n, back.getD n blankCell) else none) =
            some (n, back.getD n blankCell) :=
          if_pos hd
        have hsing : (List.filterMap (fun i =>
            if front.getD i blankCell ≠ back.getD i blankCell then
              some (i, back.getD i blankCell)
            else none) [n]) = [(n, back.getD n blankCell)] := by
          rw [List.filterMap_cons, hfs, List.filterMap_nil]
        rw [hsing, applyChanges_singleton]
        rcases Nat.lt_trichotomy j n with hj | hj | hj
        · rw [List.getElem?_set_ne (by omega), ih hn', if_pos hj, if_pos (by omega)]
        · subst hj
          rw [List.getElem?_set_self (by rw [hL]; exact hnf), if_pos (by omega),
            List.getElem?_eq_getElem hnb, List.getD_eq_getElem back blankCell hnb]
        · rw [List.getElem?_set_ne (by omega), ih hn', if_neg (by omega),
            if_neg (by omega)]

lemma applyChanges_diffChanges (front back : List Cell)
    (hlen : front.length = back.length) :
    applyChanges front (diffChanges front back) = back := by
  apply List.ext_getElem?
  intro j
  rw [show diffChanges front back = (List.range front.length).filterMap fun i =>
      if front.getD i blankCell ≠ back.getD i blankCell then
        some (i, back.getD i blankCell)
      else none from rfl]
  rw [applyChanges_diffRange front back hlen front.length le_rfl j]
  by_cases hj : j < front.length
  · rw [if_pos hj]
  · rw [if_neg hj]
    rw [List.getElem?_eq_none (by omega), List.getElem?_eq_none (by omega)]

/-- C1: diff round-trip correctness — for buffers A and B of equal
dimensions, applying the per-cell-index change set `diff(A,B)` to A yields a
buffer cell-for-cell equal to B. -/
theorem diff_roundTrip (A B : OptimizedBuffer)
    (hw : A.width = B.width) (hh : A.height = B.height)
    (hA : A.wf) (hB : B.wf) :
    applyDiff A (diff A B) = B := by
  have hlen : A.cells.length = B.cells.length := by
    rw [hA, hB, hw, hh]
  have hcells : applyChanges A.cells (diffChanges A.cells B.cells) = B.cells :=
    applyChanges_diffChanges _ _ hlen
  cases A with
  | mk wA hA' cA =>
      cases B with
      | mk wB hB' cB =>
          simp only [applyDiff, diff] at *
          subst hw hh
          simp [hcells]

/-- Witness for C1 on concrete 1×1 buffers that differ in their one cell. -/
theorem diff_roundTrip_witness :
    applyDiff ⟨1, 1, [blankCell]⟩
        (diff ⟨1, 1, [blankCell]⟩ ⟨1, 1, [⟨some 'H', defaultFg, blankBg, noAttrs⟩]⟩) =
      ⟨1, 1, [⟨some 'H', defaultFg, blankBg, noAttrs⟩]⟩ :=
  diff_roundTrip _ _ rfl rfl rfl rfl

/-- C2: swap symmetry — when front and back have identical dimensions, the
front buffer after `diffAndFlush()` is cell-for-cell the buffer that was the
back buffer immediately before the call (a reference swap, not a copy). -/
theorem diffAndFlush_swap (c : DoubleBufferCompositor)
    (hw : c.front.width = c.back.width) (hh : c.front.height = c.back.height) :
    (diffAndFlush c).1.front = c.back :=
  rfl

/-- Witness for C2 on a concrete compositor with matching 1×1 buffers. -/
theorem diffAndFlush_swap_witness :
    (diffAndFlush ⟨⟨1, 1, [blankCell]⟩,
        ⟨1, 1, [⟨some 'H', defaultFg, blankBg, noAttrs⟩]⟩⟩).1.front =
      ⟨1, 1, [⟨some 'H', defaultFg, blankBg, noAttrs⟩]⟩ :=
  diffAndFlush_swap ⟨⟨1, 1, [blankCell]⟩,
    ⟨1, 1, [⟨some 'H', defaultFg, blankBg, noAttrs⟩]⟩⟩ rfl rfl

lemma setCell_oob (b : OptimizedBuffer) {x y : ℤ} (c : Cell)
    (h : inBounds b x y = false) : setCell b x y c = b := by
  simp [setCell, h]

lemma foldl_setCell_oob {α : Type} (pos : α → ℤ × ℤ) (cell : α → Cell) :
    ∀ (l : List α) (b : OptimizedBuffer),
      (∀ a ∈ l, inBounds b (pos a).1 (pos a).2 = false) →
      l.foldl (fun acc a => setCell acc (pos a).1 (pos a).2 (cell a)) b = b := by
  intro l
  induction l with
  | nil => intro b _; rfl
  | cons a l ih =>
      intro b hb
      rw [List.foldl_cons, setCell_oob b (cell a) (hb a (List.mem_cons_self a l))]
      exact ih b (fun a' ha' => hb a' (List.mem_cons_of_mem a ha'))

/-- C3: bounds clipping safety — every draw or access call whose targeted
cells all lie outside the buffer leaves the buffer unchanged (and getCell
returns nothing rather than faulting). -/
theorem oob_ops_noop (b : OptimizedBuffer) :
    (∀ (text : List Char) (x y : ℤ) (fg bg : RGBA) (attrs : Attrs),
        (∀ p ∈ text.enum, inBounds b (x + (p.1 : ℤ)) y = false) →
        drawText b text x y fg bg attrs = b) ∧
    (∀ (x y : ℤ) (w h : ℕ) (bg : RGBA),
        (∀ p ∈ rectCells x y w h, inBounds b p.1 p.2 = false) →
        fillRect b x y w h bg = b) ∧
    (∀ (x y : ℤ) (w h : ℕ) (fg : RGBA),
        (∀ p ∈ borderCells x y w h, inBounds b p.1 p.2 = false) →
        drawRect b x y w h fg = b) ∧
    (∀ (x y : ℤ), inBounds b x y = false → getCell b x y = none) ∧
    (∀ (x y : ℤ) (c : Cell), inBounds b x y = false → setCell b x y c = b) ∧
    (∀ (x y : ℤ) (src : RGBA), inBounds b x y = false → blendColor b x y src = b) := by
  refine ⟨?_, ?_, ?_, ?_, ?_, ?_⟩
  · intro text x y fg bg attrs hout
    exact foldl_setCell_oob (fun p => (x + (p.1 : ℤ), y))
      (fun p => ⟨some p.2, fg, bg, attrs⟩) text.enum b hout
  · intro x y w h bg hout
    exact foldl_setCell_oob (fun p => (p.1, p.2))
      (fun _ => ⟨none, defaultFg, bg, noAttrs⟩) (rectCells x y w h) b hout
  · intro x y w h fg hout
    exact foldl_setCell_oob (fun p => (p.1, p.2))
      (fun _ => ⟨none, fg, blankBg, noAttrs⟩) (borderCells x y w h) b hout
  · intro x y h
    simp [getCell, h]
  · intro x y c h
    exact setCell_oob b c h
  · intro x y src h
    simp [blendColor, h]

/-- Witness for C3 on a concrete 2×2 buffer with every call aimed fully
outside the grid. -/
theorem oob_ops_noop_witness :
    drawText ⟨2, 2, List.replicate 4 blankCell⟩ ['H', 'i'] 5 0 defaultFg blankBg noAttrs =
        ⟨2, 2, List.replicate 4 blankCell⟩ ∧
    fillRect ⟨2, 2, List.replicate 4 blankCell⟩ (-9) (-9) 3 3 blankBg =
        ⟨2, 2, List.replicate 4 blankCell⟩ ∧
    drawRect ⟨2, 2, List.replicate 4 blankCell⟩ 2 2 4 4 defaultFg =
        ⟨2, 2, List.replicate 4 blankCell⟩ ∧
    getCell ⟨2, 2, List.replicate 4 blankCell⟩ (-1) 0 = none ∧
    setCell ⟨2, 2, List.replicate 4 blankCell⟩ 0 7 blankCell =
        ⟨2, 2, List.replicate 4 blankCell⟩ ∧
    blendColor ⟨2, 2, List.replicate 4 blankCell⟩ 0 (-3) ⟨1, 0, 0, 1⟩ =
        ⟨2, 2, List.replicate 4 blankCell⟩ := by
  have h := oob_ops_noop ⟨2, 2, List.replicate 4 blankCell⟩
  exact ⟨h.1 ['H', 'i'] 5 0 defaultFg blankBg noAttrs (by decide),
    h.2.1 (-9) (-9) 3 3 blankBg (by decide),
    h.2.2.1 2 2 4 4 defaultFg (by decide),
    h.2.2.2.1 (-1) 0 (by decide),
    h.2.2.2.2.1 0 7 blankCell (by decide),
    h.2.2.2.2.2 0 (-3) ⟨1, 0, 0, 1⟩ (by decide)⟩

lemma blendRGBA_one (dst : RGBA) (r g bl : ℚ) :
    blendRGBA dst ⟨r, g, bl, 1⟩ = ⟨r, g, bl, 1⟩ := by
  cases dst
  simp [blendRGBA]

lemma blendRGBA_zero (dst : RGBA) (r g bl : ℚ) :
    blendRGBA dst ⟨r, g, bl, 0⟩ = dst := by
  cases dst
  simp [blendRGBA]

lemma getCell_set_mk (w h : ℕ) (cells : List Cell) (x y : ℤ) (c : Cell)
    (hin : inBounds ⟨w, h, cells⟩ x y = true)
    (hidx : cellIndex ⟨w, h, cells⟩ x y < cells.length) :
    getCell ⟨w, h, cells.set (cellIndex ⟨w, h, cells⟩ x y) c⟩ x y = some c := by
  have hin' : inBounds ⟨w, h, cells.set (cellIndex ⟨w, h, cells⟩ x y) c⟩ x y = true := hin
  have hci : cellIndex ⟨w, h, cells.set (cellIndex ⟨w, h, cells⟩ x y) c⟩ x y
      = cellIndex ⟨w, h, cells⟩ x y := rfl
  simp only [getCell, hin', if_true, hci]
  exact List.getElem?_set_self (by simpa using hidx)

lemma list_set_get_self {α : Type} : ∀ (l : List α) (i : ℕ) (h : i < l.length),
    l.set i (l.get ⟨i, h⟩) = l := by
  intro l
  induction l with
  | nil => intro i h; simp at h
  | cons a l ih =>
      intro i h
      cases i with
      | zero => rfl
      | succ i =>
          have h' : i < l.length := by simpa using h
          show a :: l.set i (l.get ⟨i, h'⟩) = a :: l
          rw [ih i h']

/-- C4: alpha-compositing boundary cases — at an in-bounds cell, blending an
RGBA with alpha 1 sets the cell's background to exactly that color (with
alpha 1, per the over formula), and blending with alpha 0 leaves the buffer
unchanged. -/
theorem blendColor_alpha (b : OptimizedBuffer) (x y : ℤ) (r g bl : ℚ)
    (hwf : b.wf) (hin : inBounds b x y = true) :
    (∃ c₀, getCell b x y = some c₀ ∧
        getCell (blendColor b x y ⟨r, g, bl, 1⟩) x y =
          some { c₀ with bg := ⟨r, g, bl, 1⟩ }) ∧
    blendColor b x y ⟨r, g, bl, 0⟩ = b := by
  have hb : (0 ≤ x ∧ x < (b.width : ℤ)) ∧ 0 ≤ y ∧ y < (b.height : ℤ) := by
    simpa [inBounds, Bool.and_eq_true, decide_eq_true_eq, and_assoc] using hin
  have hxw : x.toNat < b.width := by omega
  have hyh : y.toNat < b.height := by omega
  have hwf' : b.cells.length = b.width * b.height := hwf
  have hidx : cellIndex b x y < b.cells.length := by
    have h1 : y.toNat * b.width + x.toNat < (y.toNat + 1) * b.width := by
      rw [Nat.succ_mul]; omega
    have h2 : (y.toNat + 1) * b.width ≤ b.height * b.width :=
      Nat.mul_le_mul_right _ (by omega)
    have h3 : y.toNat * b.width + x.toNat < b.width * b.height := by
      calc y.toNat * b.width + x.toNat < (y.toNat + 1) * b.width := h1
        _ ≤ b.height * b.width := h2
        _ = b.width * b.height := Nat.mul_comm _ _
    simpa [cellIndex, hwf'] using h3
  have hbc : ∀ src : RGBA, blendColor b x y src =
      OptimizedBuffer.mk b.width b.height
        (b.cells.set (cellIndex b x y)
          (Cell.mk (b.cells.get ⟨cellIndex b x y, hidx⟩).ch
            (b.cells.get ⟨cellIndex b x y, hidx⟩).fg
            (blendRGBA (b.cells.get ⟨cellIndex b x y, hidx⟩).bg src)
            (b.cells.get ⟨cellIndex b x y, hidx⟩).attrs)) := by
    intro src
    simp only [blendColor, hin, if_true]
    rw [List.getElem?_eq_getElem hidx]
    rfl
  constructor
  · refine ⟨b.cells.get ⟨cellIndex b x y, hidx⟩, ?_, ?_⟩
    · simp only [getCell, hin, if_true]
      rw [List.getElem?_eq_getElem hidx]
      rfl
    · rw [hbc ⟨r, g, bl, 1⟩, blendRGBA_one]
      exact getCell_set_mk b.width b.height b.cells x y _ hin hidx
  · rw [hbc ⟨r, g, bl, 0⟩, blendRGBA_zero]
    rw [list_set_get_self b.cells (cellIndex b x y) hidx]

/-- Witness for C4 on a concrete 2×2 buffer at the in-bounds cell (1,0). -/
theorem blendColor_alpha_witness :
    (∃ c₀, getCell ⟨2, 2, List.replicate 4 blankCell⟩ 1 0 = some c₀ ∧
        getCell (blendColor ⟨2, 2, List.replicate 4 blankCell⟩ 1 0
            ⟨1, 1 / 2, 0, 1⟩) 1 0 =
          some { c₀ with bg := ⟨1, 1 / 2, 0, 1⟩ }) ∧
    blendColor ⟨2, 2, List.replicate 4 blankCell⟩ 1 0 ⟨1, 1 / 2, 0, 0⟩ =
      ⟨2, 2, List.replicate 4 blankCell⟩ :=
  blendColor_alpha ⟨2, 2, List.replicate 4 blankCell⟩ 1 0 1 (1 / 2) 0
    rfl (by decide)

lemma destroy_gameState_none (sys : DemoSystem) :
    (destroy sys).gameState = none := by
  cases hg : sys.gameState with
  | none => simp [destroy, hg]
  | some gs => simp [destroy, hg]

lemma destroy_of_gameState_none (sys : DemoSystem) (h : sys.gameState = none) :
    destroy sys = sys := by
  simp [destroy, h]

/-- C5: teardown idempotence — after `destroy`, `gameState` is cleared, so a
second `destroy` in a row returns without mutating anything: the system
remains torn down. -/
theorem destroy_idempotent (sys : DemoSystem) :
    (destroy sys).gameState = none ∧ destroy (destroy sys) = destroy sys :=
  ⟨destroy_gameState_none sys,
   destroy_of_gameState_none (destroy sys) (destroy_gameState_none sys)⟩

/-- C6: guaranteed release on stop — after `destroy` of a system set up by
the demo's `run`, the frame callback, the stdin key listener and the resize
listener are all unregistered, and a tick no longer invokes the frame
callback. -/
theorem destroy_unregisters (sys : DemoSystem) (gs : DemoGameState) :
    gs.frameCallback ∉ (destroy (runRegister sys gs)).frameCallbacks ∧
    gs.keyHandler ∉ (destroy (runRegister sys gs)).stdinListeners ∧
    gs.resizeHandler ∉ (destroy (runRegister sys gs)).resizeListeners ∧
    gs.frameCallback ∉ tickInvocations (destroy (runRegister sys gs)) := by
  have hreg : (runRegister sys gs).gameState = some gs := rfl
  refine ⟨?_, ?_, ?_, ?_⟩ <;>
    simp [destroy, hreg, runRegister, tickInvocations, List.mem_filter]

lemma processEvents_no_resize (s : ViewState) :
    ∀ (es : List TermEvent), (∀ e ∈ es, isResizeEv e = false) →
      processEvents s es = s := by
  intro es
  induction es generalizing s with
  | nil => intro _; rfl
  | cons e es ih =>
      intro h
      have he : isResizeEv e = false := h e (List.mem_cons_self e es)
      have hes : ∀ e' ∈ es, isResizeEv e' = false :=
        fun e' he' => h e' (List.mem_cons_of_mem e he')
      cases e with
      | resizeEv w hgt => simp [isResizeEv] at he
      | tick => exact ih s hes
      | keyEv => exact ih s hes
      | mouseEv => exact ih s hes

/-- C7: resize-before-paint ordering — once a resize event carrying `(w, h)`
is processed, the frame buffer renderable and the compositor hold exactly
those dimensions, and they still do at every later paint tick until another
resize event arrives; hence the next paint pass runs at the resized
dimensions. -/
theorem resize_before_paint (s : ViewState) (pre post : List TermEvent) (w h : ℕ)
    (hpost : ∀ e ∈ post, isResizeEv e = false) :
    processEvents s (pre ++ TermEvent.resizeEv w h :: post) = ⟨w, h, w, h⟩ := by
  have hsplit : processEvents s (pre ++ TermEvent.resizeEv w h :: post) =
      processEvents (processEvent (processEvents s pre) (TermEvent.resizeEv w h)) post := by
    simp [processEvents, List.foldl_append]
  rw [hsplit]
  have hres : processEvent (processEvents s pre) (TermEvent.resizeEv w h) =
      ⟨w, h, w, h⟩ := rfl
  rw [hres]
  exact processEvents_no_resize _ post hpost

/-- Witness for C7 on a concrete trace: a tick, then a resize to 100×40,
then a tick and a key event. -/
theorem resize_before_paint_witness :
    processEvents ⟨80, 24, 80, 24⟩
        [TermEvent.tick, TermEvent.resizeEv 100 40, TermEvent.tick, TermEvent.keyEv] =
      ⟨100, 40, 100, 40⟩ :=
  resize_before_paint ⟨80, 24, 80, 24⟩ [TermEvent.tick]
    [TermEvent.tick, TermEvent.keyEv] 100 40 (by decide)

/-- C8: worldToScreen inverts screenToWorld exactly over the rationals,
for positive window dimensions. -/
theorem worldToScreen_screenToWorld (width height sx sy : ℚ)
    (hw : 0 < width) (hh : 0 < height) :
    worldToScreen width height (screenToWorld width height sx sy).1
      (screenToWorld width height sx sy).2 = (sx, sy) := by
  have hw0 : width ≠ 0 := ne_of_gt hw
  have hh0 : height ≠ 0 := ne_of_gt hh
  simp only [worldToScreen, screenToWorld, Prod.mk.injEq]
  constructor <;> · field_simp; ring

/-- Witness for C8 at a concrete 80×24 window and screen point (12, 7). -/
theorem worldToScreen_screenToWorld_witness :
    worldToScreen 80 24 (screenToWorld 80 24 12 7).1
      (screenToWorld 80 24 12 7).2 = (12, 7) :=
  worldToScreen_screenToWorld 80 24 12 7 (by norm_num) (by norm_num)

lemma clampTarget_le (c t : ℝ × ℝ) :
    Real.sqrt (((clampTarget c t).1 - c.1) ^ 2 + ((clampTarget c t).2 - c.2) ^ 2) ≤ 4 := by
  have hS : 0 ≤ (t.1 - c.1) ^ 2 + (t.2 - c.2) ^ 2 := by positivity
  simp only [clampTarget]
  set d := Real.sqrt ((t.1 - c.1) ^ 2 + (t.2 - c.2) ^ 2) with hd
  by_cases hgt : 4 < d
  · rw [if_pos hgt]
    have hdpos : (0 : ℝ) < d := lt_trans (by norm_num) hgt
    have hdne : d ≠ 0 := ne_of_gt hdpos
    have hd2 : d ^ 2 = (t.1 - c.1) ^ 2 + (t.2 - c.2) ^ 2 := by
      rw [hd]; exact Real.sq_sqrt hS
    have hexpr : (c.1 + (t.1 - c.1) / d * 4 - c.1) ^ 2 +
        (c.2 + (t.2 - c.2) / d * 4 - c.2) ^ 2 = 16 := by
      field_simp
      linear_combination (-16 : ℝ) * hd2
    rw [hexpr]
    exact le_of_eq (by
      rw [show (16 : ℝ) = 4 ^ 2 by norm_num, Real.sqrt_sq (by norm_num : (0 : ℝ) ≤ 4)])
  · rw [if_neg hgt]
    exact not_lt.mp hgt

/-- C9: drag-distance invariant — whenever the pointer-move handler runs
while dragging with a bird present, the bird's resulting translation lies at
Euclidean distance at most `MAX_LAUNCH_DISTANCE = 4` from
`birdStartPosition`, whatever the input position. -/
theorem onPointerMove_dragClamp (s : BirdState) (worldPos : ℝ × ℝ) (q : ℝ × ℝ)
    (hdrag : s.isDragging = true) (hbird : s.bird.isSome = true)
    (hq : (onPointerMove s worldPos).bird = some q) :
    Real.sqrt ((q.1 - s.birdStart.1) ^ 2 + (q.2 - s.birdStart.2) ^ 2) ≤ 4 := by
  obtain ⟨p, hp⟩ := Option.isSome_iff_exists.mp hbird
  have hbq : (onPointerMove s worldPos).bird =
      some (clampTarget s.birdStart
        (worldPos.1 - s.dragOffset.1, worldPos.2 - s.dragOffset.2)) := by
    simp only [onPointerMove, hp, hdrag, if_true]
  rw [hbq] at hq
  obtain rfl : q = clampTarget s.birdStart
      (worldPos.1 - s.dragOffset.1, worldPos.2 - s.dragOffset.2) :=
    (Option.some_inj.mp hq).symm
  exact clampTarget_le _ _

/-- Witness for C9: dragging with everything at the origin keeps the bird
within distance 4 of the launch center. -/
theorem onPointerMove_dragClamp_witness :
    (onPointerMove ⟨(0, 0), (0, 0), true, some ((0 : ℝ), (0 : ℝ)), (0, 0)⟩
        ((0 : ℝ), (0 : ℝ))).bird =
      some (clampTarget ((0 : ℝ), (0 : ℝ)) ((0 : ℝ) - 0, (0 : ℝ) - 0)) ∧
    Real.sqrt (((clampTarget ((0 : ℝ), (0 : ℝ)) ((0 : ℝ) - 0, (0 : ℝ) - 0)).1 - 0) ^ 2 +
      ((clampTarget ((0 : ℝ), (0 : ℝ)) ((0 : ℝ) - 0, (0 : ℝ) - 0)).2 - 0) ^ 2) ≤ 4 :=
  ⟨rfl, onPointerMove_dragClamp
    ⟨(0, 0), (0, 0), true, some ((0 : ℝ), (0 : ℝ)), (0, 0)⟩
    ((0 : ℝ), (0 : ℝ)) (clampTarget ((0 : ℝ), (0 : ℝ)) ((0 : ℝ) - 0, (0 : ℝ) - 0))
    rfl rfl rfl⟩

lemma cullFold_no_offScreen : ∀ (l : List PhysObj) (b : Option ℕ) (o : PhysObj),
    o ∈ (cullFold l b).1 → offScreen o = false := by
  intro l
  induction l with
  | nil => intro b o ho; simp [cullFold] at ho
  | cons hd rest ih =>
      intro b o ho
      by_cases hoff : offScreen hd = true
      · rw [cullFold, if_pos hoff] at ho
        exact ih _ o ho
      · have hoff' : offScreen hd = false := by simpa using hoff
        rw [cullFold, if_neg hoff] at ho
        rcases List.mem_cons.mp ho with rfl | hmem
        · exact hoff'
        · exact ih b o hmem

lemma cullFold_bird_none : ∀ (l : List PhysObj), (cullFold l none).2 = none := by
  intro l
  induction l with
  | nil => rfl
  | cons hd rest ih =>
      by_cases hoff : offScreen hd = true
      · rw [cullFold, if_pos hoff, ite_self]
        exact ih
      · rw [cullFold, if_neg hoff]
        exact ih

lemma cullFold_culls_bird : ∀ (l : List PhysObj) (b : Option ℕ) (o : PhysObj),
    o ∈ l → offScreen o = true → some o.id = b → (cullFold l b).2 = none := by
  intro l
  induction l with
  | nil => intro b o ho; simp at ho
  | cons hd rest ih =>
      intro b o ho hoff hbid
      rcases List.mem_cons.mp ho with rfl | hmem
      · rw [cullFold, if_pos hoff, if_pos hbid]
        exact cullFold_bird_none rest
      · by_cases hoffh : offScreen hd = true
        · rw [cullFold, if_pos hoffh]
          by_cases heq : some hd.id = b
          · rw [if_pos heq]
            exact cullFold_bird_none rest
          · rw [if_neg heq]
            exact ih b o hmem hoff hbid
        · rw [cullFold, if_neg hoffh]
          exact ih b o hmem hoff hbid

/-- C10: off-screen culling postcondition — after `updatePhysics`, every
remaining object's translation satisfies `y ≥ -17.5` and `|x| ≤ 20`, and if
an off-screen object was the bird, the bird reference is cleared. -/
theorem updatePhysics_cull (step : List PhysObj → List PhysObj) (s : PhysState) :
    (∀ o ∈ (updatePhysics step s).objects, -35 / 2 ≤ o.posY ∧ |o.posX| ≤ 20) ∧
    (∀ o ∈ step s.objects, offScreen o = true → some o.id = s.bird →
        (updatePhysics step s).bird = none) := by
  constructor
  · intro o ho
    have hoff : offScreen o = false :=
      cullFold_no_offScreen (step s.objects) s.bird o ho
    simp only [offScreen, Bool.or_eq_false_iff, decide_eq_false_iff_not, not_lt] at hoff
    exact hoff
  · intro o ho hoff hbid
    exact cullFold_culls_bird (step s.objects) s.bird o ho hoff hbid

/-- Witness for C10: an identity physics step on a state holding the bird at
(0, -20) (off screen) and a box at (3, 4): the box survives within bounds
and the bird reference is cleared. -/
theorem updatePhysics_cull_witness :
    ((⟨2, 3, 4⟩ : PhysObj) ∈
        (updatePhysics (fun l => l) ⟨[⟨1, 0, -20⟩, ⟨2, 3, 4⟩], some 1⟩).objects ∧
      (-35 / 2 ≤ (4 : ℚ) ∧ |(3 : ℚ)| ≤ 20)) ∧
    (offScreen ⟨1, 0, -20⟩ = true ∧
      (updatePhysics (fun l => l) ⟨[⟨1, 0, -20⟩, ⟨2, 3, 4⟩], some 1⟩).bird = none) := by
  have h1 : offScreen ⟨1, 0, -20⟩ = true := by
    simp only [offScreen, Bool.or_eq_true, decide_eq_true_eq]
    left
    norm_num
  have h2 : offScreen ⟨2, 3, 4⟩ = false := by
    simp only [offScreen, Bool.or_eq_false_iff, decide_eq_false_iff_not, not_lt]
    refine ⟨by norm_num, ?_⟩
    rw [show |(3 : ℚ)| = 3 from abs_of_nonneg (by norm_num)]
    norm_num
  have hcull : cullFold [⟨1, 0, -20⟩, ⟨2, 3, 4⟩] (some 1) = ([⟨2, 3, 4⟩], none) := by
    simp [cullFold, h1, h2]
  have h := updatePhysics_cull (fun l => l) ⟨[⟨1, 0, -20⟩, ⟨2, 3, 4⟩], some 1⟩
  have hobj : (updatePhysics (fun l => l)
      ⟨[⟨1, 0, -20⟩, ⟨2, 3, 4⟩], some 1⟩).objects = [⟨2, 3, 4⟩] := by
    show (cullFold [⟨1, 0, -20⟩, ⟨2, 3, 4⟩] (some 1)).1 = [⟨2, 3, 4⟩]
    rw [hcull]
  have hmem : (⟨2, 3, 4⟩ : PhysObj) ∈
      (updatePhysics (fun l => l) ⟨[⟨1, 0, -20⟩, ⟨2, 3, 4⟩], some 1⟩).objects := by
    rw [hobj]
    exact List.mem_singleton.mpr rfl
  exact ⟨⟨hmem, h.1 ⟨2, 3, 4⟩ hmem⟩,
    ⟨h1, h.2 ⟨1, 0, -20⟩ (List.mem_cons_self _ _) h1 rfl⟩⟩

end OpenTUI
